import Mathlib

/-!
Shallow embedding of the `workspace_sandbox` native launcher
(`src/native/src/...` and the legacy `src/native/engine.rs`), covering:

* the `ExecutionContext` data model (`strategies/base.rs`);
* the four isolation strategies' `build_command` implementations
  (`strategies/host.rs`, `strategies/linux.rs`, `strategies/macos.rs`,
  `strategies/windows.rs`), modelled as pure functions from an abstract
  host-system state `Sys` (the results of `which`, `std::env`, and the
  filesystem probes the strategies perform) and an `ExecutionContext`
  to a `BuiltCommand` description;
* the post-build lifecycle of `Engine::run` in both engine files, modelled
  as a function of the spawn/race outcome.

Rust's `std::process::Command` environment semantics are modelled by
`BuiltCommand.finalEnv`: an `env_clear` flag plus an ordered list of
explicit `env` insertions where a later insertion for the same key
overwrites an earlier one, layered over the inherited environment when the
command was not cleared.
-/

/-- Stdio configuration of a built command (`Stdio::null` / `Stdio::piped` /
inherited). -/
inductive Stdio where
  | null
  | piped
  | inherit
deriving DecidableEq

/-- Error kinds of the launcher, per the spec's error taxonomy. In the Rust
source these are `anyhow` errors; the constructor identifies the failure
site and the `String` carries the message text. -/
inductive Err where
  | toolMissing (msg : String)
  | spawnFailed (msg : String)
  | waitFailed (msg : String)
deriving DecidableEq

/-- `ExecutionContext` from `strategies/base.rs`. The Rust `HashMap` for
`env_vars` is modelled as an association list; key uniqueness is carried as
a hypothesis where a theorem needs it. -/
structure ExecutionContext where
  id : String
  root_path : String
  cmd : String
  args : List String
  env_vars : List (String × String)
  cwd : Option String
  allow_network : Bool
deriving DecidableEq

/-- Abstract state of the host system observed by the strategies:
the process environment (`std::env::var` / `std::env::vars`), executable
lookup (`which`), and the filesystem probes used by `linux.rs`
(`Path::exists`, `fs::read_link`, `fs::canonicalize`), plus the
`cfg!(windows)` compile-time flag consulted by `host.rs`. -/
structure Sys where
  processEnv : List (String × String)
  whichResult : String → Option String
  pathExists : String → Bool
  readLink : String → Option String
  canonical : String → Option String
  isWindows : Bool

/-- Rust's `str::to_lowercase`, modelled characterwise (the program names
compared against the builtin lists are ASCII). -/
def lowerStr (s : String) : String := String.mk (s.data.map Char.toLower)

/-- Rust's `str::starts_with`, modelled on the character lists. -/
def strHasPre (s pre : String) : Bool := List.isPrefixOf pre.data s.data

/-- Rust's `str::ends_with`, modelled on the character lists. -/
def strHasSuffix (s suf : String) : Bool :=
  List.isPrefixOf suf.data.reverse s.data.reverse

/-- First-match association-list lookup (the semantics of reading a map in
insertion order; `Sys.processEnv` has unique keys in practice). -/
def lookupFirst : List (String × String) → String → Option String
  | [], _ => none
  | (a, b) :: t, k => if a = k then some b else lookupFirst t k

/-- Last-match association-list lookup: models the final value of a key in
Rust's `Command` env map, where a later `.env(k, v)` call overwrites an
earlier insertion for the same key. -/
def lastLookup (l : List (String × String)) (k : String) : Option String :=
  lookupFirst l.reverse k

/-- `std::env::var` reads the same environment that `std::env::vars`
enumerates. -/
def Sys.envVar (sys : Sys) (k : String) : Option String :=
  lookupFirst sys.processEnv k

/-- A fully built `std::process::Command`: program, argument vector, the
environment-modification record, working directory, and stdio settings. -/
structure BuiltCommand where
  program : String
  args : List String
  envClear : Bool
  envOverrides : List (String × String)
  currentDir : Option String
  stdin : Stdio
  stdout : Stdio
  stderr : Stdio
deriving DecidableEq

/-- The final environment a built command would be spawned with: explicit
`env` insertions (last wins) over the inherited environment, unless
`env_clear` removed the inherited baseline. -/
def BuiltCommand.finalEnv (c : BuiltCommand) (inherited : List (String × String))
    (k : String) : Option String :=
  match lastLookup c.envOverrides k with
  | some v => some v
  | none => if c.envClear then none else lookupFirst inherited k

theorem lookupFirst_append (a b : List (String × String)) (k : String) :
    lookupFirst (a ++ b) k =
      (match lookupFirst a k with
       | some v => some v
       | none => lookupFirst b k) := by
  induction a with
  | nil => simp [lookupFirst]
  | cons p t ih =>
    obtain ⟨x, y⟩ := p
    by_cases h : x = k
    · simp [lookupFirst, h]
    · simp [lookupFirst, h, ih]

theorem lookupFirst_eq_none_of_not_mem {l : List (String × String)} {k : String}
    (h : k ∉ l.map Prod.fst) : lookupFirst l k = none := by
  induction l with
  | nil => rfl
  | cons p t ih =>
    obtain ⟨x, y⟩ := p
    simp only [List.map_cons, List.mem_cons] at h
    push_neg at h
    have hx : ¬ x = k := fun e => h.1 e.symm
    simp [lookupFirst, hx, ih h.2]

theorem lookupFirst_eq_some_of_mem {l : List (String × String)} {k v : String}
    (hnd : (l.map Prod.fst).Nodup) (hmem : (k, v) ∈ l) :
    lookupFirst l k = some v := by
  induction l with
  | nil => cases hmem
  | cons p t ih =>
    obtain ⟨x, y⟩ := p
    simp only [List.map_cons, List.nodup_cons] at hnd
    rcases List.mem_cons.1 hmem with h | h
    · cases h
      simp [lookupFirst]
    · have hx : x ≠ k := by
        intro e
        exact hnd.1 (e ▸ (List.mem_map.2 ⟨(k, v), h, rfl⟩))
      simp [lookupFirst, hx, ih hnd.2 h]

theorem lastLookup_append (a b : List (String × String)) (k : String) :
    lastLookup (a ++ b) k =
      (match lastLookup b k with
       | some v => some v
       | none => lastLookup a k) := by
  simp only [lastLookup, List.reverse_append]
  exact lookupFirst_append _ _ _

theorem lastLookup_eq_none_of_not_mem {l : List (String × String)} {k : String}
    (h : k ∉ l.map Prod.fst) : lastLookup l k = none := by
  apply lookupFirst_eq_none_of_not_mem
  simpa [List.map_reverse] using h

theorem lastLookup_eq_some_of_mem {l : List (String × String)} {k v : String}
    (hnd : (l.map Prod.fst).Nodup) (hmem : (k, v) ∈ l) :
    lastLookup l k = some v := by
  apply lookupFirst_eq_some_of_mem
  · simpa [List.map_reverse] using hnd
  · simpa using hmem

namespace HostStrategy

/-- The builtin list from `host.rs` (`builtins`). -/
def builtins : List String :=
  ["echo", "dir", "del", "copy", "move", "mkdir", "rmdir", "type", "cls", "ping"]

/-- `HostStrategy::build_command` (`host.rs`). On `cfg!(windows)` a builtin
is rerouted through `cmd /c` with the original program name passed through;
otherwise the program is resolved with `which`, falling back to the bare
name. Environment variables are injected additively over the inherited
environment (no `env_clear`), and the working directory is `cwd` if set,
else `root_path`. -/
def build_command (sys : Sys) (ctx : ExecutionContext) : Except Err BuiltCommand :=
  let reroute : Prop := sys.isWindows = true ∧ lowerStr ctx.cmd ∈ builtins
  let program := if reroute then "cmd" else ctx.cmd
  let args := if reroute then "/c" :: ctx.cmd :: ctx.args else ctx.args
  let resolved := if program = "cmd" then "cmd" else (sys.whichResult program).getD program
  .ok
    { program := resolved
      args := args
      envClear := false
      envOverrides := ctx.env_vars
      currentDir := some (ctx.cwd.getD ctx.root_path)
      stdin := .null
      stdout := .piped
      stderr := .piped }

end HostStrategy

namespace WindowsJobStrategy

/-- The builtin list from `windows.rs` (adds `ver` to the host list). -/
def builtins : List String :=
  ["echo", "dir", "del", "copy", "move", "mkdir", "rmdir", "type", "cls", "ping", "ver"]

/-- The fixed allowlist of environment variables kept after `env_clear`
(`critical_vars` in `windows.rs`). -/
def critical_vars : List String :=
  ["SystemRoot", "windir", "PATH", "PATHEXT", "COMSPEC", "TEMP", "TMP",
   "USERPROFILE", "JAVA_HOME"]

/-- The proxy variables injected when `allow_network` is false, pointing at
an unreachable address. -/
def proxyEnv : List (String × String) :=
  [("HTTP_PROXY", "http://0.0.0.0:0"), ("HTTPS_PROXY", "http://0.0.0.0:0"),
   ("ALL_PROXY", "socks5://0.0.0.0:0"), ("NO_PROXY", "")]

/-- Rerouting condition of `windows.rs`: a shell builtin or a batch-script
suffix (`.bat` / `.cmd`) on the lowercased program name. -/
def reroutes (cmd : String) : Prop :=
  lowerStr cmd ∈ builtins ∨ strHasSuffix (lowerStr cmd) ".bat" = true ∨
    strHasSuffix (lowerStr cmd) ".cmd" = true

instance (cmd : String) : Decidable (reroutes cmd) := by
  unfold reroutes
  infer_instance

/-- `WindowsJobStrategy::build_command` (`windows.rs`). Clears the
environment to `critical_vars` read from the current process, layers
`ctx.env_vars`, and then — when `allow_network` is false — injects the
proxy variables (after `ctx.env_vars`: a later `env` call overwrites an
earlier one for the same key). The post-build job-object creation and
assignment is an OS side effect with no influence on the built command's
description and is outside this embedding. -/
def build_command (sys : Sys) (ctx : ExecutionContext) : Except Err BuiltCommand :=
  let program := if reroutes ctx.cmd then "cmd" else ctx.cmd
  let args := if reroutes ctx.cmd then "/c" :: ctx.cmd :: ctx.args else ctx.args
  let resolved := if program = "cmd" then "cmd" else (sys.whichResult program).getD program
  let criticalEnv := critical_vars.filterMap fun k => (sys.envVar k).map fun v => (k, v)
  .ok
    { program := resolved
      args := args
      envClear := true
      envOverrides := criticalEnv ++ ctx.env_vars ++
        (if ctx.allow_network then [] else proxyEnv)
      currentDir := some (ctx.cwd.getD ctx.root_path)
      stdin := .null
      stdout := .piped
      stderr := .piped }

end WindowsJobStrategy

namespace MacOsSandboxStrategy

/-- Message of the error returned when `/usr/bin/sandbox-exec` is absent. -/
def missingMsg : String := "sandbox-exec not found on this system"

/-- The dynamically generated Seatbelt profile of `macos.rs`: default
allow, deny all file writes except the workspace root, temp directories,
the shared directory and fixed per-user tool caches, and an
`allow`/`deny network*` clause driven by `allow_network`. The raw-string
indentation whitespace of the Rust template is elided. -/
def profile (workspace home : String) (allowNetwork : Bool) : String :=
  let networkPolicy := if allowNetwork then "(allow network*)" else "(deny network*)"
  "\n(version 1)\n(allow default)\n\n(deny file-write* (subpath \"/\"))\n\n" ++
    "(allow file-write*\n(subpath \"" ++ workspace ++ "\")\n" ++
    "(subpath \"/private/var/folders\")\n(subpath \"/tmp\")\n(subpath \"/var/tmp\")\n" ++
    "(subpath \"/Users/Shared\")\n(subpath \"" ++ home ++ "/.m2\")\n" ++
    "(subpath \"" ++ home ++ "/.gradle\")\n(subpath \"" ++ home ++ "/.dart_tool\")\n)\n\n" ++
    networkPolicy ++ "\n\n(allow process-exec)\n(allow process-fork)\n(allow mach-lookup)\n"

/-- `MacOsSandboxStrategy::build_command` (`macos.rs`): requires
`/usr/bin/sandbox-exec` to exist, invokes it with `-p <profile>` followed by
the target command, clears the environment and rebuilds it from the full
current process environment plus `ctx.env_vars`, and uses `cwd` or
`root_path` as the working directory. -/
def build_command (sys : Sys) (ctx : ExecutionContext) : Except Err BuiltCommand :=
  if sys.pathExists "/usr/bin/sandbox-exec" then
    let home := (sys.envVar "HOME").getD "/var/tmp"
    .ok
      { program := "/usr/bin/sandbox-exec"
        args := "-p" :: profile ctx.root_path home ctx.allow_network :: ctx.cmd :: ctx.args
        envClear := true
        envOverrides := sys.processEnv ++ ctx.env_vars
        currentDir := some (ctx.cwd.getD ctx.root_path)
        stdin := .null
        stdout := .piped
        stderr := .piped }
  else
    .error (.toolMissing missingMsg)

end MacOsSandboxStrategy

namespace LinuxBwrapStrategy

/-- Message produced by the `.context(...)` on the failed `which("bwrap")`
lookup in `linux.rs`. -/
def missingMsg : String := "bwrap not found. Install with: sudo apt install bubblewrap"

/-- The namespace/lifetime flags passed first (`linux.rs`). -/
def ns_args : List String :=
  ["--die-with-parent", "--unshare-pid", "--unshare-ipc", "--unshare-uts"]

/-- The network-namespace flag chosen from `ctx.allow_network`. -/
def net_args (allowNetwork : Bool) : List String :=
  if allowNetwork then ["--share-net"] else ["--unshare-net"]

/-- The filesystem root construction of `linux.rs`: a read-only bind of the
entire host root, then fresh `/dev` and `/proc`, and tmpfs mounts over
`/tmp`, `/var/tmp`, `/root` and `/run`. -/
def fs_args : List String :=
  ["--ro-bind", "/", "/", "--dev", "/dev", "--proc", "/proc", "--tmpfs", "/tmp",
   "--tmpfs", "/var/tmp", "--tmpfs", "/root", "--tmpfs", "/run"]

/-- Model of `Path::parent` on a path string: the portion before the last
path separator (`some "/"` for a direct child of the root, `none` for the
root itself or a bare name). -/
def parentPath (s : String) : Option String :=
  match s.data.reverse.dropWhile (fun c => c ≠ '/') with
  | [] => none
  | [_] => if s.data.length ≤ 1 then none else some "/"
  | _ :: rest => some (String.mk rest.reverse)

/-- The `/etc/resolv.conf` handling of `linux.rs`: if it is a symlink, bind
its canonical target (creating the parent directory) when that target lives
under `/run`; if it is a regular existing file, bind it directly. -/
def resolv_conf_args (sys : Sys) : List String :=
  match sys.readLink "/etc/resolv.conf" with
  | some _ =>
    match sys.canonical "/etc/resolv.conf" with
    | some real =>
      if strHasPre real "/run" = true then
        (match parentPath real with
         | some p => ["--dir", p]
         | none => []) ++ ["--ro-bind", real, real]
      else []
    | none => []
  | none =>
    if sys.pathExists "/etc/resolv.conf" then
      ["--ro-bind", "/etc/resolv.conf", "/etc/resolv.conf"]
    else []

/-- The per-user tool cache directories bound read-only under `$HOME`
(`tool_caches` in `linux.rs`). -/
def tool_caches : List String :=
  [".m2", ".gradle", ".npm", ".pub-cache", ".cargo", ".rustup",
   ".local/share/pnpm", "go/pkg", ".config/gcloud", ".flutter"]

/-- The read-only bind arguments for the tool caches that exist under the
home directory. `Path::join` of the home directory with each relative cache
path is modelled as separator concatenation. -/
def cache_bind_args (sys : Sys) (home : String) : List String → List String
  | [] => []
  | c :: rest =>
    (if sys.pathExists (home ++ "/" ++ c) = true then
      ["--ro-bind", home ++ "/" ++ c, home ++ "/" ++ c]
    else []) ++ cache_bind_args sys home rest

/-- The `$HOME` handling of `linux.rs`: when `HOME` is set and exists, mount
a tmpfs over it and bind the existing tool caches read-only. -/
def home_args (sys : Sys) : List String :=
  match sys.envVar "HOME" with
  | some home =>
    if sys.pathExists home = true then
      ["--tmpfs", home] ++ cache_bind_args sys home tool_caches
    else []
  | none => []

/-- The workspace bind and in-sandbox working directory (`linux.rs`): the
workspace root is bound read-write at its own path and `--chdir` targets it
unconditionally. -/
def workspace_args (ctx : ExecutionContext) : List String :=
  ["--bind", ctx.root_path, ctx.root_path, "--chdir", ctx.root_path]

/-- All bubblewrap flags, in the order `linux.rs` pushes them, before the
`--` separator and the target command. -/
def flag_args (sys : Sys) (ctx : ExecutionContext) : List String :=
  ns_args ++ net_args ctx.allow_network ++ fs_args ++ resolv_conf_args sys ++
    home_args sys ++ workspace_args ctx

/-- The complete bubblewrap argument vector: flags, a `--` separator, then
the literal target command and arguments. -/
def all_args (sys : Sys) (ctx : ExecutionContext) : List String :=
  flag_args sys ctx ++ ("--" :: ctx.cmd :: ctx.args)

/-- The environment-variable allowlist kept after `env_clear`
(`keep_vars` in `linux.rs`). -/
def keep_vars : List String :=
  ["PATH", "JAVA_HOME", "FLUTTER_ROOT", "GOPATH", "TERM", "LANG", "HOME", "SHELL"]

/-- The allowlisted variables that are actually present in the current
process environment, in allowlist order. -/
def keep_env (sys : Sys) : List (String × String) :=
  keep_vars.filterMap fun k => (sys.envVar k).map fun v => (k, v)

/-- `LinuxBwrapStrategy::build_command` (`linux.rs`): requires `bwrap` on
the `PATH` (an error naming the tool otherwise), assembles the bubblewrap
invocation, clears the environment down to `keep_vars`, layers
`ctx.env_vars` on top, and sets no launcher-side working directory (the
in-sandbox directory comes from `--chdir`). -/
def build_command (sys : Sys) (ctx : ExecutionContext) : Except Err BuiltCommand :=
  match sys.whichResult "bwrap" with
  | none => .error (.toolMissing missingMsg)
  | some bwrapPath =>
    .ok
      { program := bwrapPath
        args := all_args sys ctx
        envClear := true
        envOverrides := keep_env sys ++ ctx.env_vars
        currentDir := none
        stdin := .null
        stdout := .piped
        stderr := .piped }

end LinuxBwrapStrategy

/-- The four isolation strategies (`Engine::new` selects one per platform
and sandbox flag). -/
inductive Strategy where
  | host
  | linuxNamespace
  | macSeatbelt
  | windowsJobObject
deriving DecidableEq

/-- Polymorphic dispatch of `IsolationStrategy::build_command`. -/
def Strategy.build_command : Strategy → Sys → ExecutionContext → Except Err BuiltCommand
  | .host => HostStrategy.build_command
  | .linuxNamespace => LinuxBwrapStrategy.build_command
  | .macSeatbelt => MacOsSandboxStrategy.build_command
  | .windowsJobObject => WindowsJobStrategy.build_command

/-- An `std::process::ExitStatus` of the child: either a normal exit with a
code or (on Unix) death by a signal, in which case `.code()` is `None`. The
two cases are mutually exclusive, as for the OS status word. -/
inductive ExitSt where
  | exitCode (c : Int)
  | signaled (sig : Nat)
deriving DecidableEq

/-- `ExitStatus::code()`. -/
def ExitSt.code : ExitSt → Option Int
  | .exitCode c => some c
  | .signaled _ => none

/-- `ExitStatus::signal()` (the Unix extension). -/
def ExitSt.signal : ExitSt → Option Nat
  | .exitCode _ => none
  | .signaled s => some s

/-- Which event resolved the engine's race: an external termination request
arriving first, the child exiting with a status, or an OS-level wait
failure. -/
inductive RaceResult where
  | termination
  | exited (st : ExitSt)
  | waitError (msg : String)
deriving DecidableEq

/-- The environment-dependent behaviour of one engine run after the command
is built: whether the spawn fails (with the OS message) and, if not, how
the completion race resolves. -/
structure ChildBehavior where
  spawnFail : Option String
  raced : RaceResult
deriving DecidableEq

/-- Observable side effects of one engine run: whether a child process was
spawned, whether the engine killed it, and whether the engine awaited the
two stream-copy tasks before returning. -/
structure EngineTrace where
  spawned : Bool
  killedChild : Bool
  joinedCopyTasks : Bool
deriving DecidableEq

namespace Engine

/-- `Engine::run` of `src/native/src/engine.rs` from the strategy's build
result onward: propagate build errors without spawning, report spawn
failures, return `-1` and kill the child when a termination request wins
the race (without awaiting the copy tasks), and otherwise await both copy
tasks and return `status.code().unwrap_or(-1)`, or a wait-failure error. -/
def run (build : Except Err BuiltCommand) (beh : ChildBehavior) :
    Except Err Int × EngineTrace :=
  match build with
  | .error e => (.error e, ⟨false, false, false⟩)
  | .ok _ =>
    match beh.spawnFail with
    | some m => (.error (.spawnFailed ("Spawn failed: " ++ m)), ⟨false, false, false⟩)
    | none =>
      match beh.raced with
      | .termination => (.ok (-1), ⟨true, true, false⟩)
      | .exited st => (.ok ((ExitSt.code st).getD (-1)), ⟨true, false, true⟩)
      | .waitError m => (.error (.waitFailed ("Wait failed: " ++ m)), ⟨true, false, true⟩)

end Engine

namespace EngineLegacy

/-- `Engine::run` of the legacy `src/native/engine.rs` from the strategy's
build result onward. Differences in the source text: the spawn-failure
message embeds the strategy name, the wait failure is propagated raw by
`?`, and after a normal exit the Unix branch returns `-1` explicitly
whenever `status.signal()` is `Some`, after computing
`status.code().unwrap_or(-1)`. -/
def run (stratName : String) (build : Except Err BuiltCommand) (beh : ChildBehavior) :
    Except Err Int × EngineTrace :=
  match build with
  | .error e => (.error e, ⟨false, false, false⟩)
  | .ok _ =>
    match beh.spawnFail with
    | some m =>
      (.error (.spawnFailed ("Spawn failed via " ++ stratName ++ ": " ++ m)),
        ⟨false, false, false⟩)
    | none =>
      match beh.raced with
      | .termination => (.ok (-1), ⟨true, true, false⟩)
      | .exited st =>
        let code := (ExitSt.code st).getD (-1)
        if (ExitSt.signal st).isSome then (.ok (-1), ⟨true, false, true⟩)
        else (.ok code, ⟨true, false, true⟩)
      | .waitError m => (.error (.waitFailed m), ⟨true, false, true⟩)

end EngineLegacy

/-- A string shaped like an absolute path: its first character is the path
separator. Every path the Linux strategy receives from the OS (a `which`
result, a canonicalized path, a `HOME` value) and the workspace root are
absolute in practice; this is the well-formedness the flag lemmas need to
separate path arguments from `--`-prefixed flags. -/
def AbsPath (s : String) : Prop := s.data.head? = some '/'

/-- Appending anything to an absolute-path-shaped string keeps the shape. -/
theorem AbsPath.append {a : String} (b : String) (h : AbsPath a) :
    AbsPath (a ++ b) := by
  unfold AbsPath at *
  rw [String.data_append]
  cases hd : a.data with
  | nil => rw [hd] at h; cases h
  | cons c t =>
    rw [hd] at h
    simp only [List.head?] at h
    cases h
    simp [List.head?]

/-- An absolute-path-shaped string is never equal to a string whose first
character is a dash (i.e. to any bubblewrap flag). -/
theorem AbsPath.ne_dash {s t : String} (h : AbsPath s)
    (ht : t.data.head? = some '-') : s ≠ t := by
  intro e
  rw [e] at h
  rw [h] at ht
  cases ht

/-- Well-formedness of the OS-observed paths used by the Linux strategy:
the `HOME` value and the canonical `/etc/resolv.conf` target (and its
parent directory) are absolute paths. -/
def SysPathsOk (sys : Sys) : Prop :=
  (∀ h, sys.envVar "HOME" = some h → AbsPath h) ∧
  (∀ r, sys.canonical "/etc/resolv.conf" = some r →
    AbsPath r ∧ ∀ p, LinuxBwrapStrategy.parentPath r = some p → AbsPath p)

namespace LinuxBwrapStrategy

theorem mem_cache_bind_args {sys : Sys} {home s : String} {l : List String}
    (h : s ∈ cache_bind_args sys home l) :
    s = "--ro-bind" ∨ ∃ c, s = home ++ "/" ++ c := by
  induction l with
  | nil => cases h
  | cons c rest ih =>
    simp only [cache_bind_args, List.mem_append] at h
    rcases h with h | h
    · by_cases hp : sys.pathExists (home ++ "/" ++ c) = true
      · rw [if_pos hp] at h
        rcases List.mem_cons.1 h with h | h
        · exact Or.inl h
        · rcases List.mem_cons.1 h with h | h
          · exact Or.inr ⟨c, h⟩
          · rcases List.mem_cons.1 h with h | h
            · exact Or.inr ⟨c, h⟩
            · cases h
      · rw [if_neg hp] at h
        cases h
    · exact ih h

theorem mem_home_args {sys : Sys} {s : String} (h : s ∈ home_args sys) :
    s = "--tmpfs" ∨ s = "--ro-bind" ∨
      ∃ home, sys.envVar "HOME" = some home ∧
        (s = home ∨ ∃ c, s = home ++ "/" ++ c) := by
  unfold home_args at h
  split at h
  next home he =>
    split at h
    next hp =>
      rcases List.mem_cons.1 h with h | h
      · exact Or.inl h
      · rcases List.mem_cons.1 h with h | h
        · exact Or.inr (Or.inr ⟨home, he, Or.inl h⟩)
        · rcases mem_cache_bind_args h with h | ⟨c, hc⟩
          · exact Or.inr (Or.inl h)
          · exact Or.inr (Or.inr ⟨home, he, Or.inr ⟨c, hc⟩⟩)
    next hp => cases h
  next he => cases h

theorem mem_resolv_conf_args {sys : Sys} {s : String}
    (h : s ∈ resolv_conf_args sys) :
    s = "--dir" ∨ s = "--ro-bind" ∨ s = "/etc/resolv.conf" ∨
      ∃ r, sys.canonical "/etc/resolv.conf" = some r ∧
        (s = r ∨ parentPath r = some s) := by
  unfold resolv_conf_args at h
  split at h
  next tgt hl =>
    split at h
    next real hc =>
      split at h
      next hr =>
        rcases List.mem_append.1 h with h | h
        · split at h
          next p hp =>
            rcases List.mem_cons.1 h with h | h
            · exact Or.inl h
            · rcases List.mem_cons.1 h with h | h
              · exact Or.inr (Or.inr (Or.inr ⟨real, hc, Or.inr (h.symm ▸ hp)⟩))
              · cases h
          next hp => cases h
        · rcases List.mem_cons.1 h with h | h
          · exact Or.inr (Or.inl h)
          · rcases List.mem_cons.1 h with h | h
            · exact Or.inr (Or.inr (Or.inr ⟨real, hc, Or.inl h⟩))
            · rcases List.mem_cons.1 h with h | h
              · exact Or.inr (Or.inr (Or.inr ⟨real, hc, Or.inl h⟩))
              · cases h
      next hr => cases h
    next hc => cases h
  next hl =>
    split at h
    next hp =>
      rcases List.mem_cons.1 h with h | h
      · exact Or.inr (Or.inl h)
      · rcases List.mem_cons.1 h with h | h
        · exact Or.inr (Or.inr (Or.inl h))
        · rcases List.mem_cons.1 h with h | h
          · exact Or.inr (Or.inr (Or.inl h))
          · cases h
    next hp => cases h

theorem mem_flag_args {sys : Sys} {ctx : ExecutionContext} {s : String}
    (h : s ∈ flag_args sys ctx) :
    s ∈ ns_args ∨ s ∈ net_args ctx.allow_network ∨ s ∈ fs_args ∨
      s ∈ resolv_conf_args sys ∨ s ∈ home_args sys ∨ s ∈ workspace_args ctx := by
  simp only [flag_args, List.mem_append] at h
  tauto

/-- No bubblewrap flag other than the fixed ones pushed by `linux.rs` can
appear among the helper's own arguments: every data-dependent argument is
an absolute path when the observed system paths are well formed. -/
theorem not_mem_flag_args {sys : Sys} {ctx : ExecutionContext}
    (wf : SysPathsOk sys) (hroot : AbsPath ctx.root_path) (t : String)
    (ht : t.data.head? = some '-')
    (h1 : t ∉ ns_args) (h2 : t ∉ net_args ctx.allow_network) (h3 : t ∉ fs_args)
    (h4 : t ≠ "--dir") (h5 : t ≠ "--ro-bind") (h6 : t ≠ "--tmpfs")
    (h7 : t ≠ "--bind") (h8 : t ≠ "--chdir") :
    t ∉ flag_args sys ctx := by
  intro hmem
  rcases mem_flag_args hmem with h | h | h | h | h | h
  · exact h1 h
  · exact h2 h
  · exact h3 h
  · rcases mem_resolv_conf_args h with h | h | h | ⟨r, hc, h⟩
    · exact h4 h
    · exact h5 h
    · exact AbsPath.ne_dash (show AbsPath "/etc/resolv.conf" from rfl) ht h.symm
    · rcases h with h | h
      · exact AbsPath.ne_dash (wf.2 r hc).1 ht h.symm
      · exact AbsPath.ne_dash ((wf.2 r hc).2 t h) ht rfl
  · rcases mem_home_args h with h | h | ⟨home, he, h⟩
    · exact h6 h
    · exact h5 h
    · rcases h with h | ⟨c, hcc⟩
      · exact AbsPath.ne_dash (wf.1 home he) ht h.symm
      · exact AbsPath.ne_dash (AbsPath.append ("/" ++ c) (wf.1 home he)) ht
          (by simpa [String.append_assoc] using hcc.symm)
  · simp only [workspace_args, List.mem_cons, List.not_mem_nil, or_false] at h
    rcases h with h | h | h | h | h
    · exact h7 h
    · exact AbsPath.ne_dash hroot ht h.symm
    · exact AbsPath.ne_dash hroot ht h.symm
    · exact h8 h
    · exact AbsPath.ne_dash hroot ht h.symm

end LinuxBwrapStrategy

/-- A host system with `bwrap` on the `PATH`, `sandbox-exec` installed, and
a small process environment. Used to evaluate the strategies concretely. -/
def sysFull : Sys :=
  { processEnv := [("PATH", "/usr/bin"), ("HOME", "/home/user"), ("FOO", "bar")]
    whichResult := fun p => if p = "bwrap" then some "/usr/bin/bwrap" else none
    pathExists := fun p => p == "/usr/bin/sandbox-exec"
    readLink := fun _ => none
    canonical := fun _ => none
    isWindows := false }

/-- A host system with no sandboxing tools installed at all. -/
def sysMissing : Sys :=
  { processEnv := []
    whichResult := fun _ => none
    pathExists := fun _ => false
    readLink := fun _ => none
    canonical := fun _ => none
    isWindows := true }

/-- A simple valid execution context. -/
def ctx0 : ExecutionContext :=
  { id := "run-1"
    root_path := "/ws"
    cmd := "echo"
    args := ["hi"]
    env_vars := [("K", "V")]
    cwd := none
    allow_network := true }

/-- The command the Host strategy builds from `sysFull` and `ctx0`. -/
def builtHost0 : BuiltCommand :=
  { program := "echo"
    args := ["hi"]
    envClear := false
    envOverrides := [("K", "V")]
    currentDir := some "/ws"
    stdin := .null
    stdout := .piped
    stderr := .piped }

/-- CLAIM C5: for every context and every strategy, a successfully built
command is configured with stdin null, stdout piped and stderr piped; the
context is taken by shared reference and never mutated (in this pure
embedding the strategies are functions of the context, so immutability is
structural). -/
theorem claim5_stdio (strat : Strategy) (sys : Sys) (ctx : ExecutionContext)
    (c : BuiltCommand) (h : strat.build_command sys ctx = .ok c) :
    c.stdin = Stdio.null ∧ c.stdout = Stdio.piped ∧ c.stderr = Stdio.piped := by
  cases strat <;>
    simp only [Strategy.build_command, HostStrategy.build_command,
      LinuxBwrapStrategy.build_command, MacOsSandboxStrategy.build_command,
      WindowsJobStrategy.build_command] at h
  case host =>
    cases h
    exact ⟨rfl, rfl, rfl⟩
  case linuxNamespace =>
    split at h
    · cases h
    · cases h
      exact ⟨rfl, rfl, rfl⟩
  case macSeatbelt =>
    split at h
    · cases h
      exact ⟨rfl, rfl, rfl⟩
    · cases h
  case windowsJobObject =>
    cases h
    exact ⟨rfl, rfl, rfl⟩

/-- Witness for C5 at a concrete strategy, system and context. -/
theorem claim5_stdio_witness :
    builtHost0.stdin = Stdio.null ∧ builtHost0.stdout = Stdio.piped ∧
      builtHost0.stderr = Stdio.piped :=
  claim5_stdio Strategy.host sysFull ctx0 builtHost0 rfl

/-- CLAIM C7: for every engine run (`src/native/src/engine.rs`), a normal
child exit with code `c` yields `Ok c`; a child death without a usable exit
code yields `Ok (-1)`; a termination request winning the race kills the
child and yields `Ok (-1)`; and, whenever every usable exit code is
non-negative (the spec's output contract for child exit codes), `-1` is
returned exactly for cancellation and for code-less exits. -/
theorem claim7_exit_code (bc : BuiltCommand) (c : Int) (sig : Nat) (st : ExitSt) :
    (Engine.run (.ok bc) ⟨none, .exited (.exitCode c)⟩).1 = .ok c ∧
    (Engine.run (.ok bc) ⟨none, .exited (.signaled sig)⟩).1 = .ok (-1) ∧
    Engine.run (.ok bc) ⟨none, .termination⟩ = (.ok (-1), ⟨true, true, false⟩) ∧
    ((∀ c', st.code = some c' → 0 ≤ c') →
      ((Engine.run (.ok bc) ⟨none, .exited st⟩).1 = .ok (-1) ↔ st.code = none)) := by
  refine ⟨rfl, rfl, rfl, fun hnn => ?_⟩
  cases st with
  | exitCode c' =>
    have h0 : (0 : Int) ≤ c' := hnn c' rfl
    simp only [Engine.run, ExitSt.code, Option.getD]
    constructor
    · intro h
      have : c' = -1 := by
        cases h
        rfl
      omega
    · intro h
      cases h
  | signaled s => simp [Engine.run, ExitSt.code]

/-- Witness for C7 at a concrete command, exit status and race outcomes. -/
theorem claim7_exit_code_witness :
    (Engine.run (.ok builtHost0) ⟨none, .exited (.exitCode 0)⟩).1 = .ok 0 ∧
    ((Engine.run (.ok builtHost0) ⟨none, .exited (.exitCode 0)⟩).1 = .ok (-1) ↔
      (ExitSt.exitCode 0).code = none) := by
  refine ⟨(claim7_exit_code builtHost0 0 9 (.exitCode 0)).1, ?_⟩
  refine (claim7_exit_code builtHost0 0 9 (.exitCode 0)).2.2.2 ?_
  intro c' h
  cases h
  exact le_refl 0

/-- CLAIM C10: the two `Engine::run` implementations (`src/native/engine.rs`
and `src/native/src/engine.rs`) compute the same result for every child
outcome: identical results and traces for a child exit (awaiting both copy
tasks) and for an external termination request (killing the child without
awaiting the copy tasks, returning `-1`), and both an error when the
OS-level wait fails. -/
theorem claim10_engine_equiv (name : String) (bc : BuiltCommand) (st : ExitSt)
    (m : String) :
    EngineLegacy.run name (.ok bc) ⟨none, .exited st⟩ =
      Engine.run (.ok bc) ⟨none, .exited st⟩ ∧
    (Engine.run (.ok bc) ⟨none, .exited st⟩).1 = .ok ((st.code).getD (-1)) ∧
    (Engine.run (.ok bc) ⟨none, .exited st⟩).2.joinedCopyTasks = true ∧
    EngineLegacy.run name (.ok bc) ⟨none, .termination⟩ =
      Engine.run (.ok bc) ⟨none, .termination⟩ ∧
    Engine.run (.ok bc) ⟨none, .termination⟩ = (.ok (-1), ⟨true, true, false⟩) ∧
    (EngineLegacy.run name (.ok bc) ⟨none, .waitError m⟩).1.toOption = none ∧
    (Engine.run (.ok bc) ⟨none, .waitError m⟩).1.toOption = none ∧
    (EngineLegacy.run name (.ok bc) ⟨none, .waitError m⟩).2 =
      (Engine.run (.ok bc) ⟨none, .waitError m⟩).2 := by
  refine ⟨?_, ?_, ?_, rfl, rfl, rfl, rfl, rfl⟩
  · cases st with
    | exitCode c => simp [EngineLegacy.run, Engine.run, ExitSt.code, ExitSt.signal]
    | signaled s => simp [EngineLegacy.run, Engine.run, ExitSt.code, ExitSt.signal]
  · cases st <;> rfl
  · cases st <;> rfl

/-- Substring relation on strings, via character lists. -/
def substrOf (a b : String) : Prop := a.data <:+: b.data

/-- CLAIM C6: when the required host sandboxing binary is absent (`bwrap`
for the namespace strategy, `sandbox-exec` for the Seatbelt strategy),
`build_command` returns a tool-missing error whose message names the tool
(with an install hint for `bwrap`), and `Engine::run` propagates that error
with no process spawned — there is no fallback path to another strategy in
`run` (the single selected strategy is the only one consulted). -/
theorem claim6_tool_missing (sys : Sys) (ctx : ExecutionContext)
    (beh : ChildBehavior) (hB : sys.whichResult "bwrap" = none)
    (hS : sys.pathExists "/usr/bin/sandbox-exec" = false) :
    LinuxBwrapStrategy.build_command sys ctx =
      .error (.toolMissing LinuxBwrapStrategy.missingMsg) ∧
    substrOf "bwrap" LinuxBwrapStrategy.missingMsg ∧
    substrOf "apt install bubblewrap" LinuxBwrapStrategy.missingMsg ∧
    MacOsSandboxStrategy.build_command sys ctx =
      .error (.toolMissing MacOsSandboxStrategy.missingMsg) ∧
    substrOf "sandbox-exec" MacOsSandboxStrategy.missingMsg ∧
    Engine.run (LinuxBwrapStrategy.build_command sys ctx) beh =
      (.error (.toolMissing LinuxBwrapStrategy.missingMsg), ⟨false, false, false⟩) ∧
    Engine.run (MacOsSandboxStrategy.build_command sys ctx) beh =
      (.error (.toolMissing MacOsSandboxStrategy.missingMsg), ⟨false, false, false⟩) := by
  have hLin : LinuxBwrapStrategy.build_command sys ctx =
      .error (.toolMissing LinuxBwrapStrategy.missingMsg) := by
    unfold LinuxBwrapStrategy.build_command
    rw [hB]
  have hMac : MacOsSandboxStrategy.build_command sys ctx =
      .error (.toolMissing MacOsSandboxStrategy.missingMsg) := by
    unfold MacOsSandboxStrategy.build_command
    rw [hS]
    simp
  refine ⟨hLin, ⟨[], ?_⟩, ?_, hMac, ?_, ?_, ?_⟩
  · exact ⟨(" not found. Install with: sudo apt install bubblewrap").data, by decide⟩
  · exact ⟨("bwrap not found. Install with: sudo ").data, [], by decide⟩
  · exact ⟨[], (" not found on this system").data, by decide⟩
  · rw [hLin]
    rfl
  · rw [hMac]
    rfl

/-- Witness for C6 on a host with neither tool installed. -/
theorem claim6_tool_missing_witness :
    LinuxBwrapStrategy.build_command sysMissing ctx0 =
      .error (.toolMissing LinuxBwrapStrategy.missingMsg) ∧
    Engine.run (LinuxBwrapStrategy.build_command sysMissing ctx0)
        ⟨none, .termination⟩ =
      (.error (.toolMissing LinuxBwrapStrategy.missingMsg), ⟨false, false, false⟩) := by
  have h := claim6_tool_missing sysMissing ctx0 ⟨none, .termination⟩ rfl rfl
  exact ⟨h.1, h.2.2.2.2.2.1⟩

theorem lastLookup_append_right {b : List (String × String)} {k v : String}
    (a : List (String × String)) (h : lastLookup b k = some v) :
    lastLookup (a ++ b) k = some v := by
  rw [lastLookup_append, h]

theorem lastLookup_append_left {b : List (String × String)} {k : String}
    (a : List (String × String)) (h : lastLookup b k = none) :
    lastLookup (a ++ b) k = lastLookup a k := by
  rw [lastLookup_append, h]

/-- CLAIM C1 (amended): for every context with unique `env_vars` keys and
every strategy, each `env_vars` entry appears in the built command's final
environment with its own value, overriding inherited, allowlisted and
forced values — except that on Windows with `allow_network = false` the
four injected proxy variables are written after `ctx.env_vars` and
therefore override same-named `env_vars` entries. -/
theorem claim1_env_override (sys : Sys) (ctx : ExecutionContext) (k v : String)
    (hnd : (ctx.env_vars.map Prod.fst).Nodup) (hmem : (k, v) ∈ ctx.env_vars) :
    (∀ c, HostStrategy.build_command sys ctx = .ok c →
      c.finalEnv sys.processEnv k = some v) ∧
    (∀ c, LinuxBwrapStrategy.build_command sys ctx = .ok c →
      c.finalEnv sys.processEnv k = some v) ∧
    (∀ c, MacOsSandboxStrategy.build_command sys ctx = .ok c →
      c.finalEnv sys.processEnv k = some v) ∧
    (∀ c, WindowsJobStrategy.build_command sys ctx = .ok c →
      (ctx.allow_network = true → c.finalEnv sys.processEnv k = some v) ∧
      (ctx.allow_network = false → k ∉ WindowsJobStrategy.proxyEnv.map Prod.fst →
        c.finalEnv sys.processEnv k = some v) ∧
      (ctx.allow_network = false →
        c.finalEnv sys.processEnv "HTTP_PROXY" = some "http://0.0.0.0:0" ∧
        c.finalEnv sys.processEnv "HTTPS_PROXY" = some "http://0.0.0.0:0" ∧
        c.finalEnv sys.processEnv "ALL_PROXY" = some "socks5://0.0.0.0:0" ∧
        c.finalEnv sys.processEnv "NO_PROXY" = some "")) := by
  have hv : lastLookup ctx.env_vars k = some v := lastLookup_eq_some_of_mem hnd hmem
  refine ⟨?_, ?_, ?_, ?_⟩
  · intro c hc
    cases hc
    simp only [BuiltCommand.finalEnv, hv]
  · intro c hc
    unfold LinuxBwrapStrategy.build_command at hc
    split at hc
    · cases hc
    · cases hc
      simp only [BuiltCommand.finalEnv,
        lastLookup_append_right (LinuxBwrapStrategy.keep_env sys) hv]
  · intro c hc
    unfold MacOsSandboxStrategy.build_command at hc
    split at hc
    · cases hc
      simp only [BuiltCommand.finalEnv, lastLookup_append_right sys.processEnv hv]
    · cases hc
  · intro c hc
    cases hc
    refine ⟨?_, ?_, ?_⟩
    · intro hnet
      simp only [BuiltCommand.finalEnv, hnet, if_true, List.append_nil,
        lastLookup_append_right _ hv]
    · intro hnet hout
      have hp : lastLookup WindowsJobStrategy.proxyEnv k = none :=
        lastLookup_eq_none_of_not_mem hout
      simp only [BuiltCommand.finalEnv, hnet, Bool.false_eq_true, if_false,
        lastLookup_append_left _ hp, lastLookup_append_right _ hv]
    · intro hnet
      simp only [BuiltCommand.finalEnv, hnet, Bool.false_eq_true, if_false]
      refine ⟨?_, ?_, ?_, ?_⟩
      · rw [lastLookup_append_right _ (show lastLookup WindowsJobStrategy.proxyEnv
          "HTTP_PROXY" = some "http://0.0.0.0:0" by decide)]
      · rw [lastLookup_append_right _ (show lastLookup WindowsJobStrategy.proxyEnv
          "HTTPS_PROXY" = some "http://0.0.0.0:0" by decide)]
      · rw [lastLookup_append_right _ (show lastLookup WindowsJobStrategy.proxyEnv
          "ALL_PROXY" = some "socks5://0.0.0.0:0" by decide)]
      · rw [lastLookup_append_right _ (show lastLookup WindowsJobStrategy.proxyEnv
          "NO_PROXY" = some "" by decide)]

/-- The command the Linux strategy builds from `sysFull` and `ctx0`. -/
def builtLinux0 : BuiltCommand :=
  { program := "/usr/bin/bwrap"
    args := ["--die-with-parent", "--unshare-pid", "--unshare-ipc", "--unshare-uts",
      "--share-net", "--ro-bind", "/", "/", "--dev", "/dev", "--proc", "/proc",
      "--tmpfs", "/tmp", "--tmpfs", "/var/tmp", "--tmpfs", "/root", "--tmpfs", "/run",
      "--bind", "/ws", "/ws", "--chdir", "/ws", "--", "echo", "hi"]
    envClear := true
    envOverrides := [("PATH", "/usr/bin"), ("HOME", "/home/user"), ("K", "V")]
    currentDir := none
    stdin := .null
    stdout := .piped
    stderr := .piped }

/-- The command the Seatbelt strategy builds from `sysFull` and `ctx0`. -/
def builtMac0 : BuiltCommand :=
  { program := "/usr/bin/sandbox-exec"
    args := "-p" :: MacOsSandboxStrategy.profile "/ws" "/home/user" true :: ["echo", "hi"]
    envClear := true
    envOverrides := [("PATH", "/usr/bin"), ("HOME", "/home/user"), ("FOO", "bar"), ("K", "V")]
    currentDir := some "/ws"
    stdin := .null
    stdout := .piped
    stderr := .piped }

/-- The command the Windows strategy builds from `sysFull` and `ctx0`. -/
def builtWin0 : BuiltCommand :=
  { program := "cmd"
    args := ["/c", "echo", "hi"]
    envClear := true
    envOverrides := [("PATH", "/usr/bin"), ("K", "V")]
    currentDir := some "/ws"
    stdin := .null
    stdout := .piped
    stderr := .piped }

/-- Witness for C1 at `sysFull`, `ctx0` and the entry `("K", "V")`. -/
theorem claim1_env_override_witness :
    builtHost0.finalEnv sysFull.processEnv "K" = some "V" ∧
    builtLinux0.finalEnv sysFull.processEnv "K" = some "V" ∧
    builtMac0.finalEnv sysFull.processEnv "K" = some "V" ∧
    builtWin0.finalEnv sysFull.processEnv "K" = some "V" := by
  have h := claim1_env_override sysFull ctx0 "K" "V" (by decide) (by decide)
  exact ⟨h.1 builtHost0 rfl, h.2.1 builtLinux0 rfl, h.2.2.1 builtMac0 rfl,
    (h.2.2.2 builtWin0 rfl).1 rfl⟩

/-- A context carrying an explicit `HTTP_PROXY` override with networking
disallowed. -/
def ctxProxy : ExecutionContext :=
  { id := "run-2"
    root_path := "/ws"
    cmd := "curl"
    args := []
    env_vars := [("HTTP_PROXY", "http://corp:8080")]
    cwd := none
    allow_network := false }

/-- Counterexample to C1 as stated: on the Windows strategy with
`allow_network = false`, the `env_vars` entry for `HTTP_PROXY` is
overridden by the injected proxy value, not preserved. -/
theorem claim1_counterexample :
    ("HTTP_PROXY", "http://corp:8080") ∈ ctxProxy.env_vars ∧
    (WindowsJobStrategy.build_command sysFull ctxProxy).toOption.map
        (fun c => c.finalEnv sysFull.processEnv "HTTP_PROXY") =
      some (some "http://0.0.0.0:0") ∧
    some (some "http://0.0.0.0:0") ≠ some (some ("http://corp:8080" : String)) := by
  refine ⟨by decide, by decide, by decide⟩

theorem finalEnv_of_envClear {c : BuiltCommand} (h : c.envClear = true)
    (inh : List (String × String)) (k : String) :
    c.finalEnv inh k = lastLookup c.envOverrides k := by
  unfold BuiltCommand.finalEnv
  rw [h]
  cases lastLookup c.envOverrides k <;> simp

theorem map_fst_filterMap_env (sys : Sys) (l : List String) :
    (l.filterMap fun x => (sys.envVar x).map fun v => (x, v)).map Prod.fst =
      l.filter fun x => (sys.envVar x).isSome := by
  induction l with
  | nil => rfl
  | cons x t ih =>
    cases hx : sys.envVar x <;>
      simp [List.filterMap_cons, List.filter_cons, hx, ih]

/-- CLAIM C2 (amended): the Linux strategy fully clears the environment,
passes through only the fixed allowlist `keep_vars` (PATH, JAVA_HOME,
FLUTTER_ROOT, GOPATH, TERM, LANG, HOME, SHELL) from the current process
environment — not the entire environment, and with no separate forced
`HOME`/`TERM` overrides — and then layers `ctx.env_vars` on top as final
overrides. -/
theorem claim2_linux_env (sys : Sys) (ctx : ExecutionContext) :
    ∀ c, LinuxBwrapStrategy.build_command sys ctx = .ok c →
      c.envClear = true ∧
      (∀ k, k ∉ LinuxBwrapStrategy.keep_vars → k ∉ ctx.env_vars.map Prod.fst →
        c.finalEnv sys.processEnv k = none) ∧
      (∀ k, k ∈ LinuxBwrapStrategy.keep_vars → k ∉ ctx.env_vars.map Prod.fst →
        c.finalEnv sys.processEnv k = sys.envVar k) ∧
      (∀ k v, (ctx.env_vars.map Prod.fst).Nodup → (k, v) ∈ ctx.env_vars →
        c.finalEnv sys.processEnv k = some v) := by
  intro c hc
  unfold LinuxBwrapStrategy.build_command at hc
  split at hc
  · cases hc
  · cases hc
    have hnodup : ((LinuxBwrapStrategy.keep_env sys).map Prod.fst).Nodup := by
      rw [LinuxBwrapStrategy.keep_env, map_fst_filterMap_env]
      exact List.Nodup.filter _ (by decide)
    refine ⟨rfl, ?_, ?_, ?_⟩
    · intro k h1 h2
      rw [finalEnv_of_envClear rfl, lastLookup_append,
        lastLookup_eq_none_of_not_mem h2]
      apply lastLookup_eq_none_of_not_mem
      rw [LinuxBwrapStrategy.keep_env, map_fst_filterMap_env]
      intro hmem
      exact h1 (List.mem_filter.1 hmem).1
    · intro k h1 h2
      rw [finalEnv_of_envClear rfl, lastLookup_append,
        lastLookup_eq_none_of_not_mem h2]
      cases hv : sys.envVar k with
      | some v =>
        have hm : (k, v) ∈ LinuxBwrapStrategy.keep_env sys :=
          List.mem_filterMap.2 ⟨k, h1, by rw [hv]; rfl⟩
        rw [lastLookup_eq_some_of_mem hnodup hm]
      | none =>
        rw [lastLookup_eq_none_of_not_mem]
        rw [LinuxBwrapStrategy.keep_env, map_fst_filterMap_env]
        intro hmem
        have := (List.mem_filter.1 hmem).2
        rw [hv] at this
        cases this
    · intro k v hnd hmem
      rw [finalEnv_of_envClear rfl, lastLookup_append,
        lastLookup_eq_some_of_mem hnd hmem]

/-- Witness for C2 at `sysFull` and `ctx0`: the non-allowlisted variable
`FOO` is dropped, the allowlisted `PATH` is passed through, and the
`env_vars` entry `K` wins. -/
theorem claim2_linux_env_witness :
    builtLinux0.envClear = true ∧
    builtLinux0.finalEnv sysFull.processEnv "FOO" = none ∧
    builtLinux0.finalEnv sysFull.processEnv "PATH" = Sys.envVar sysFull "PATH" ∧
    builtLinux0.finalEnv sysFull.processEnv "K" = some "V" := by
  have h := claim2_linux_env sysFull ctx0 builtLinux0 rfl
  exact ⟨h.1, h.2.1 "FOO" (by decide) (by decide),
    h.2.2.1 "PATH" (by decide) (by decide),
    h.2.2.2 "K" "V" (by decide) (by decide)⟩

/-- Counterexample to C2 as stated: `FOO` is present in the current process
environment and not overridden, yet the built command's environment drops
it (the passthrough is only the fixed allowlist, not the full current
environment). -/
theorem claim2_counterexample :
    Sys.envVar sysFull "FOO" = some "bar" ∧
    (LinuxBwrapStrategy.build_command sysFull ctx0).toOption.map
        (fun c => c.finalEnv sysFull.processEnv "FOO") = some none ∧
    some (none : Option String) ≠ some (some "bar") := by
  refine ⟨by decide, by decide, by decide⟩

/-- CLAIM C8 (amended): the Host, Seatbelt and Windows strategies set the
built command's working directory to `cwd` when present and `root_path`
otherwise; the Linux strategy sets no launcher-side working directory and
instead always passes `--chdir root_path` to bubblewrap, ignoring `cwd`. -/
theorem claim8_cwd (sys : Sys) (ctx : ExecutionContext) :
    (∀ c, HostStrategy.build_command sys ctx = .ok c →
      c.currentDir = some (ctx.cwd.getD ctx.root_path)) ∧
    (∀ c, MacOsSandboxStrategy.build_command sys ctx = .ok c →
      c.currentDir = some (ctx.cwd.getD ctx.root_path)) ∧
    (∀ c, WindowsJobStrategy.build_command sys ctx = .ok c →
      c.currentDir = some (ctx.cwd.getD ctx.root_path)) ∧
    (∀ c, LinuxBwrapStrategy.build_command sys ctx = .ok c →
      c.currentDir = none ∧ ["--chdir", ctx.root_path] <:+: c.args) := by
  refine ⟨?_, ?_, ?_, ?_⟩
  · intro c hc
    cases hc
    rfl
  · intro c hc
    unfold MacOsSandboxStrategy.build_command at hc
    split at hc
    · cases hc
      rfl
    · cases hc
  · intro c hc
    cases hc
    rfl
  · intro c hc
    unfold LinuxBwrapStrategy.build_command at hc
    split at hc
    · cases hc
    · cases hc
      refine ⟨rfl, ?_⟩
      refine ⟨LinuxBwrapStrategy.ns_args ++
        LinuxBwrapStrategy.net_args ctx.allow_network ++
        LinuxBwrapStrategy.fs_args ++ LinuxBwrapStrategy.resolv_conf_args sys ++
        LinuxBwrapStrategy.home_args sys ++ ["--bind", ctx.root_path, ctx.root_path],
        "--" :: ctx.cmd :: ctx.args, ?_⟩
      simp [LinuxBwrapStrategy.all_args, LinuxBwrapStrategy.flag_args,
        LinuxBwrapStrategy.workspace_args, List.append_assoc]

/-- Witness for C8 at `sysFull` and `ctx0`. -/
theorem claim8_cwd_witness :
    builtHost0.currentDir = some (ctx0.cwd.getD ctx0.root_path) ∧
    builtLinux0.currentDir = none ∧
    ["--chdir", ctx0.root_path] <:+: builtLinux0.args := by
  have h := claim8_cwd sysFull ctx0
  exact ⟨h.1 builtHost0 rfl, (h.2.2.2 builtLinux0 rfl).1, (h.2.2.2 builtLinux0 rfl).2⟩

/-- A context with an explicit `cwd` override. -/
def ctxCwd : ExecutionContext :=
  { id := "run-3"
    root_path := "/ws"
    cmd := "make"
    args := []
    env_vars := []
    cwd := some "/elsewhere"
    allow_network := false }

/-- Counterexample to C8 as stated: with `cwd = some "/elsewhere"`, the
Linux strategy's built command has no working directory set and
`/elsewhere` appears nowhere in its argument vector (the `--chdir` target
is `root_path`). -/
theorem claim8_counterexample :
    ctxCwd.cwd = some "/elsewhere" ∧
    (LinuxBwrapStrategy.build_command sysFull ctxCwd).toOption.map
        (fun c => c.currentDir) = some none ∧
    ("/elsewhere" : String) ∉
      ((LinuxBwrapStrategy.build_command sysFull ctxCwd).toOption.elim []
        fun c => c.args) := by
  refine ⟨rfl, by decide, by decide⟩

/-- CLAIM C9 (amended): on Windows, the Host strategy reroutes exactly the
commands whose lowercased name is in its fixed ten-builtin list through the
interpreter (`cmd` with `/c` and the original program name following);
batch-script suffixes are not rerouted by Host — only the WindowsJobObject
strategy reroutes those (and `ver`) — and any other command (other than the
literal `cmd`) is resolved via executable lookup with fallback to the bare
name. -/
theorem claim9_builtin_reroute (sys : Sys) (ctx : ExecutionContext)
    (hw : sys.isWindows = true) :
    (lowerStr ctx.cmd ∈ HostStrategy.builtins →
      ∀ c, HostStrategy.build_command sys ctx = .ok c →
        c.program = "cmd" ∧ c.args = "/c" :: ctx.cmd :: ctx.args) ∧
    (lowerStr ctx.cmd ∉ HostStrategy.builtins → ctx.cmd ≠ "cmd" →
      ∀ c, HostStrategy.build_command sys ctx = .ok c →
        c.program = (sys.whichResult ctx.cmd).getD ctx.cmd ∧ c.args = ctx.args) ∧
    (WindowsJobStrategy.reroutes ctx.cmd →
      ∀ c, WindowsJobStrategy.build_command sys ctx = .ok c →
        c.program = "cmd" ∧ c.args = "/c" :: ctx.cmd :: ctx.args) := by
  refine ⟨?_, ?_, ?_⟩
  · intro hmem c hc
    simp only [HostStrategy.build_command, hw, hmem, true_and, if_true] at hc
    cases hc
    exact ⟨rfl, rfl⟩
  · intro hmem hcmd c hc
    have hr : ¬ (sys.isWindows = true ∧ lowerStr ctx.cmd ∈ HostStrategy.builtins) :=
      fun h => hmem h.2
    simp only [HostStrategy.build_command, if_neg hr] at hc
    cases hc
    exact ⟨if_neg hcmd, rfl⟩
  · intro hre c hc
    simp only [WindowsJobStrategy.build_command, if_pos hre, if_true,
      eq_self_iff_true] at hc
    cases hc
    exact ⟨rfl, rfl⟩

/-- The command the Host strategy builds from `sysMissing` (a Windows host)
and `ctx0`. -/
def builtHostWin : BuiltCommand :=
  { program := "cmd"
    args := ["/c", "echo", "hi"]
    envClear := false
    envOverrides := [("K", "V")]
    currentDir := some "/ws"
    stdin := .null
    stdout := .piped
    stderr := .piped }

/-- Witness for C9 at a Windows host with the builtin `echo`. -/
theorem claim9_builtin_reroute_witness :
    builtHostWin.program = "cmd" ∧
    builtHostWin.args = "/c" :: ctx0.cmd :: ctx0.args := by
  have h := claim9_builtin_reroute sysMissing ctx0 rfl
  exact h.1 (by decide) builtHostWin rfl

/-- A context invoking a batch script. -/
def ctxBat : ExecutionContext :=
  { id := "run-4"
    root_path := "/ws"
    cmd := "build.bat"
    args := ["all"]
    env_vars := []
    cwd := none
    allow_network := true }

/-- Counterexample to C9 as stated: on Windows, a command with a
batch-script suffix is not rerouted through the interpreter by the Host
strategy — the program stays the script name and no `/c` is inserted. -/
theorem claim9_counterexample :
    strHasSuffix (lowerStr ctxBat.cmd) ".bat" = true ∧
    sysMissing.isWindows = true ∧
    (HostStrategy.build_command sysMissing ctxBat).toOption.map
        (fun c => c.program) = some "build.bat" ∧
    (HostStrategy.build_command sysMissing ctxBat).toOption.map
        (fun c => c.args) = some ["all"] ∧
    some ("build.bat" : String) ≠ some ("cmd" : String) := by
  refine ⟨by decide, rfl, by decide, by decide, by decide⟩

/-- CLAIM C3 (amended): the Linux strategy's argument vector binds the
entire host root read-only (`--ro-bind / /`) and overlays a fresh `/dev`
and `/proc` and tmpfs mounts on `/tmp`, `/var/tmp`, `/root` and `/run`; it
creates no `/usr`-specific bind, no compatibility symlinks and no writable
root overlay (there is no `--symlink` or overlay flag in the helper's
argument list). -/
theorem claim3_rootfs (sys : Sys) (ctx : ExecutionContext)
    (wf : SysPathsOk sys) (hroot : AbsPath ctx.root_path) :
    LinuxBwrapStrategy.fs_args <:+: LinuxBwrapStrategy.all_args sys ctx ∧
    "--symlink" ∉ LinuxBwrapStrategy.flag_args sys ctx ∧
    "--overlay" ∉ LinuxBwrapStrategy.flag_args sys ctx ∧
    "--tmp-overlay" ∉ LinuxBwrapStrategy.flag_args sys ctx := by
  refine ⟨?_, ?_, ?_, ?_⟩
  · refine ⟨LinuxBwrapStrategy.ns_args ++
      LinuxBwrapStrategy.net_args ctx.allow_network,
      LinuxBwrapStrategy.resolv_conf_args sys ++ LinuxBwrapStrategy.home_args sys ++
        LinuxBwrapStrategy.workspace_args ctx ++ ("--" :: ctx.cmd :: ctx.args), ?_⟩
    simp [LinuxBwrapStrategy.all_args, LinuxBwrapStrategy.flag_args,
      List.append_assoc]
  · exact LinuxBwrapStrategy.not_mem_flag_args wf hroot _ rfl (by decide)
      (by cases ctx.allow_network <;> decide) (by decide) (by decide) (by decide)
      (by decide) (by decide) (by decide)
  · exact LinuxBwrapStrategy.not_mem_flag_args wf hroot _ rfl (by decide)
      (by cases ctx.allow_network <;> decide) (by decide) (by decide) (by decide)
      (by decide) (by decide) (by decide)
  · exact LinuxBwrapStrategy.not_mem_flag_args wf hroot _ rfl (by decide)
      (by cases ctx.allow_network <;> decide) (by decide) (by decide) (by decide)
      (by decide) (by decide) (by decide)

/-- The observed paths of `sysFull` are well formed. -/
theorem sysFull_paths_ok : SysPathsOk sysFull := by
  constructor
  · intro h hh
    have hv : Sys.envVar sysFull "HOME" = some "/home/user" := by decide
    rw [hv] at hh
    cases hh
    rfl
  · intro r hr
    have hv : sysFull.canonical "/etc/resolv.conf" = none := rfl
    rw [hv] at hr
    cases hr

/-- Witness for C3 at `sysFull` and `ctx0`. -/
theorem claim3_rootfs_witness :
    LinuxBwrapStrategy.fs_args <:+: LinuxBwrapStrategy.all_args sysFull ctx0 ∧
    "--symlink" ∉ LinuxBwrapStrategy.flag_args sysFull ctx0 :=
  ⟨(claim3_rootfs sysFull ctx0 sysFull_paths_ok rfl).1,
    (claim3_rootfs sysFull ctx0 sysFull_paths_ok rfl).2.1⟩

/-- Counterexample to C3 as stated: at a concrete input the helper
invocation read-only binds the entire host root, and contains neither a
`/usr` argument (so no `/usr` bind) nor any compatibility symlink flag. -/
theorem claim3_counterexample :
    ["--ro-bind", "/", "/"] <:+: LinuxBwrapStrategy.all_args sysFull ctx0 ∧
    ("/usr" : String) ∉ LinuxBwrapStrategy.all_args sysFull ctx0 ∧
    ("--symlink" : String) ∉ LinuxBwrapStrategy.all_args sysFull ctx0 := by
  refine ⟨by decide, by decide, by decide⟩

/-- CLAIM C4 (amended): the helper invocation contains the
`--die-with-parent` lifetime flag and flags creating new PID, IPC and UTS
namespaces; it passes no user-namespace flag (and bubblewrap has no
explicit mount-namespace flag — the mount namespace is implicit); and it
contains exactly one network flag: `--share-net` when `allow_network` is
true, `--unshare-net` when it is false, never both. -/
theorem claim4_namespace_flags (sys : Sys) (ctx : ExecutionContext)
    (wf : SysPathsOk sys) (hroot : AbsPath ctx.root_path) :
    "--die-with-parent" ∈ LinuxBwrapStrategy.flag_args sys ctx ∧
    "--unshare-pid" ∈ LinuxBwrapStrategy.flag_args sys ctx ∧
    "--unshare-ipc" ∈ LinuxBwrapStrategy.flag_args sys ctx ∧
    "--unshare-uts" ∈ LinuxBwrapStrategy.flag_args sys ctx ∧
    "--unshare-user" ∉ LinuxBwrapStrategy.flag_args sys ctx ∧
    (ctx.allow_network = true →
      "--share-net" ∈ LinuxBwrapStrategy.flag_args sys ctx ∧
      "--unshare-net" ∉ LinuxBwrapStrategy.flag_args sys ctx) ∧
    (ctx.allow_network = false →
      "--unshare-net" ∈ LinuxBwrapStrategy.flag_args sys ctx ∧
      "--share-net" ∉ LinuxBwrapStrategy.flag_args sys ctx) := by
  refine ⟨?_, ?_, ?_, ?_, ?_, ?_, ?_⟩
  · simp [LinuxBwrapStrategy.flag_args, LinuxBwrapStrategy.ns_args]
  · simp [LinuxBwrapStrategy.flag_args, LinuxBwrapStrategy.ns_args]
  · simp [LinuxBwrapStrategy.flag_args, LinuxBwrapStrategy.ns_args]
  · simp [LinuxBwrapStrategy.flag_args, LinuxBwrapStrategy.ns_args]
  · exact LinuxBwrapStrategy.not_mem_flag_args wf hroot _ rfl (by decide)
      (by cases ctx.allow_network <;> decide) (by decide) (by decide) (by decide)
      (by decide) (by decide) (by decide)
  · intro hnet
    constructor
    · simp [LinuxBwrapStrategy.flag_args, LinuxBwrapStrategy.net_args, hnet]
    · refine LinuxBwrapStrategy.not_mem_flag_args wf hroot _ rfl (by decide)
        ?_ (by decide) (by decide) (by decide) (by decide) (by decide) (by decide)
      rw [hnet]
      decide
  · intro hnet
    constructor
    · simp [LinuxBwrapStrategy.flag_args, LinuxBwrapStrategy.net_args, hnet]
    · refine LinuxBwrapStrategy.not_mem_flag_args wf hroot _ rfl (by decide)
        ?_ (by decide) (by decide) (by decide) (by decide) (by decide) (by decide)
      rw [hnet]
      decide

/-- Witness for C4 at `sysFull` and `ctx0` (where networking is allowed). -/
theorem claim4_namespace_flags_witness :
    "--die-with-parent" ∈ LinuxBwrapStrategy.flag_args sysFull ctx0 ∧
    "--unshare-user" ∉ LinuxBwrapStrategy.flag_args sysFull ctx0 ∧
    "--share-net" ∈ LinuxBwrapStrategy.flag_args sysFull ctx0 ∧
    "--unshare-net" ∉ LinuxBwrapStrategy.flag_args sysFull ctx0 := by
  have h := claim4_namespace_flags sysFull ctx0 sysFull_paths_ok rfl
  exact ⟨h.1, h.2.2.2.2.1, (h.2.2.2.2.2.1 rfl).1, (h.2.2.2.2.2.1 rfl).2⟩

/-- Counterexample to C4 as stated: at a concrete input the helper
invocation contains none of bubblewrap's user-namespace flags (and no
`--unshare-all`), so it does not contain flags creating mount and user
namespaces. -/
theorem claim4_counterexample :
    ("--unshare-user" : String) ∉ LinuxBwrapStrategy.all_args sysFull ctx0 ∧
    ("--unshare-user-try" : String) ∉ LinuxBwrapStrategy.all_args sysFull ctx0 ∧
    ("--unshare-all" : String) ∉ LinuxBwrapStrategy.all_args sysFull ctx0 ∧
    ("--unshare-pid" : String) ∈ LinuxBwrapStrategy.all_args sysFull ctx0 := by
  refine ⟨by decide, by decide, by decide, by decide⟩
